import Mathlib

/-!
Verification of the request-resilience layer of the motion-ui-mcp-server
repository: the TTL cache (`src/utils/cache.ts`), the circuit breaker
(`src/utils/circuit-breaker.ts`), the input sanitizer
(`src/utils/validation.ts`), and the five tool handlers
(`src/tools/...`).  Timestamps, durations and counters are modelled as
`Int` (JavaScript numbers under integer arithmetic), fallible paths as
`Option`, and the handlers' cache-write policy as explicit
`(outcome, ttl)` values.
-/

namespace MotionMCP

/-! ## Circuit breaker (`src/utils/circuit-breaker.ts`)

The `CircuitBreaker` class holds `failures`, `lastFailTime` and a
three-valued `state`; `execute` gates the wrapped operation on the state
and routes the outcome through `onSuccess` / `onFailure`.  A call is
modelled by the current clock value `now : Int` and a boolean saying
whether the wrapped operation would succeed. -/

inductive BState where
  | CLOSED
  | OPEN
  | HALF_OPEN
deriving DecidableEq, Repr

structure Breaker where
  failureThreshold : Int
  timeout : Int
  monitoringPeriod : Int
  failures : Int
  lastFailTime : Int
  state : BState
deriving DecidableEq, Repr

/-- Constructor state: `failures = 0`, `lastFailTime = 0`, `state = CLOSED`. -/
def Breaker.init (failureThreshold timeout monitoringPeriod : Int) : Breaker :=
  { failureThreshold := failureThreshold
    timeout := timeout
    monitoringPeriod := monitoringPeriod
    failures := 0
    lastFailTime := 0
    state := .CLOSED }

/-- `onSuccess`: reset `failures` to 0; leave `HALF_OPEN` for `CLOSED`. -/
def Breaker.onSuccess (b : Breaker) : Breaker :=
  { b with
    failures := 0
    state := if b.state = .HALF_OPEN then .CLOSED else b.state }

/-- `onFailure`: increment `failures`, stamp `lastFailTime`, and go `OPEN`
once `failures >= failureThreshold`. -/
def Breaker.onFailure (b : Breaker) (now : Int) : Breaker :=
  { b with
    failures := b.failures + 1
    lastFailTime := now
    state := if b.failureThreshold ≤ b.failures + 1 then .OPEN else b.state }

/-- The gating prefix of `execute`: from `OPEN`, fail fast (`none`) while
`now - lastFailTime < timeout`, otherwise move to `HALF_OPEN` and let the
call proceed; from any other state let the call proceed unchanged. -/
def Breaker.gate (b : Breaker) (now : Int) : Option Breaker :=
  if b.state = .OPEN then
    if now - b.lastFailTime < b.timeout then none
    else some { b with state := .HALF_OPEN }
  else some b

inductive ExecResult where
  | success
  | opFailed
  | circuitOpen
deriving DecidableEq, Repr

structure ExecOut where
  result : ExecResult
  breaker : Breaker
  invoked : Bool
deriving DecidableEq, Repr

/-- One `execute` call: `circuitOpen` rethrows the fast-fail error without
invoking the operation; otherwise the operation runs (`invoked = true`)
and its outcome is recorded via `onSuccess` / `onFailure`. -/
def Breaker.execute (b : Breaker) (now : Int) (opSucceeds : Bool) : ExecOut :=
  match b.gate now with
  | none => ⟨.circuitOpen, b, false⟩
  | some b1 =>
      if opSucceeds then ⟨.success, b1.onSuccess, true⟩
      else ⟨.opFailed, b1.onFailure now, true⟩

/-- A sequence of failing `execute` calls at the given clock values,
also recording whether every call actually invoked its operation. -/
def runFailsInvoked (b : Breaker) : List Int → Breaker × Bool
  | [] => (b, true)
  | t :: ts =>
      let e := b.execute t false
      let r := runFailsInvoked e.breaker ts
      (r.1, e.invoked && r.2)

/-- A sequence of `execute` calls, each given as `(clock, opSucceeds)`. -/
def runCalls (b : Breaker) : List (Int × Bool) → Breaker
  | [] => b
  | (t, op) :: steps => runCalls (b.execute t op).breaker steps

lemma execute_open_fastfail (b : Breaker) (t : Int) (op : Bool)
    (hs : b.state = .OPEN) (ht : t - b.lastFailTime < b.timeout) :
    b.execute t op = ⟨.circuitOpen, b, false⟩ := by
  unfold Breaker.execute Breaker.gate
  rw [if_pos hs, if_pos ht]

lemma onFailure_fields (b : Breaker) (now : Int) :
    (b.onFailure now).failureThreshold = b.failureThreshold ∧
    (b.onFailure now).timeout = b.timeout ∧
    (b.onFailure now).failures = b.failures + 1 ∧
    (b.onFailure now).lastFailTime = now := by
  exact ⟨rfl, rfl, rfl, rfl⟩

/-- Core induction for repeated failures from `CLOSED`: as long as the
failure count stays below the threshold until the last call, every call
invokes its operation, the count increases by one per call, and the final
state is `OPEN` exactly when the threshold is reached. -/
lemma runFails_closed (ts : List Int) (b : Breaker)
    (hne : ts ≠ [])
    (hs : b.state = .CLOSED)
    (heq : b.failures + ts.length = b.failureThreshold) :
    (runFailsInvoked b ts).2 = true ∧
    (runFailsInvoked b ts).1.state = .OPEN ∧
    (runFailsInvoked b ts).1.failures = b.failureThreshold ∧
    (runFailsInvoked b ts).1.failureThreshold = b.failureThreshold ∧
    (runFailsInvoked b ts).1.timeout = b.timeout := by
  induction ts generalizing b with
  | nil => exact absurd rfl hne
  | cons t ts ih =>
      have hgate : b.gate t = some b := by
        unfold Breaker.gate
        rw [if_neg (by rw [hs]; intro h; cases h)]
      have hexec : b.execute t false = ⟨.opFailed, b.onFailure t, true⟩ := by
        unfold Breaker.execute
        rw [hgate]
        rfl
      by_cases hts : ts = []
      · subst hts
        have hth : b.failureThreshold ≤ b.failures + 1 := by
          simp at heq
          omega
        have hstate : (b.onFailure t).state = .OPEN := by
          unfold Breaker.onFailure
          simp [hth]
        simp [runFailsInvoked, hexec, hstate, Breaker.onFailure]
        simp at heq
        omega
      · have hlen : 1 ≤ (ts.length : Int) := by
          have : 0 < ts.length := List.length_pos.mpr hts
          exact_mod_cast this
        have hlt : ¬ b.failureThreshold ≤ b.failures + 1 := by
          simp [List.length_cons] at heq
          omega
        have hstate : (b.onFailure t).state = .CLOSED := by
          unfold Breaker.onFailure
          simp [hlt, hs]
        have heq' : (b.onFailure t).failures + ts.length =
            (b.onFailure t).failureThreshold := by
          unfold Breaker.onFailure
          simp [List.length_cons] at heq ⊢
          omega
        have := ih (b.onFailure t) hts hstate heq'
        simp [runFailsInvoked, hexec]
        simpa [Breaker.onFailure] using this

/-- Claim C5: starting from the initial `CLOSED` state, `failureThreshold`
consecutive failing operations (each actually invoked) drive the breaker
to `OPEN` with `failures = failureThreshold`, and afterwards every
`execute` call made while `now - lastFailTime < timeout` returns the
distinct `circuitOpen` outcome, leaves the breaker unchanged, and never
invokes the underlying operation. -/
theorem breaker_opens_on_threshold (thr tmo mon : Int) (ts : List Int)
    (hthr : 0 < thr) (hlen : (ts.length : Int) = thr) :
    (runFailsInvoked (Breaker.init thr tmo mon) ts).2 = true ∧
    (runFailsInvoked (Breaker.init thr tmo mon) ts).1.state = .OPEN ∧
    (runFailsInvoked (Breaker.init thr tmo mon) ts).1.failures = thr ∧
    ∀ (t : Int) (op : Bool),
      t - (runFailsInvoked (Breaker.init thr tmo mon) ts).1.lastFailTime <
        tmo →
      (runFailsInvoked (Breaker.init thr tmo mon) ts).1.execute t op =
        ⟨.circuitOpen, (runFailsInvoked (Breaker.init thr tmo mon) ts).1,
          false⟩ := by
  have hne : ts ≠ [] := by
    intro h
    subst h
    simp at hlen
    omega
  have h := runFails_closed ts (Breaker.init thr tmo mon) hne rfl
    (by simp [Breaker.init, hlen])
  refine ⟨h.1, h.2.1, by simpa [Breaker.init] using h.2.2.1, ?_⟩
  intro t op ht
  exact execute_open_fastfail _ t op h.2.1
    (by rw [h.2.2.2.2]; simpa [Breaker.init] using ht)

/-- Witness for `breaker_opens_on_threshold` at threshold 2, calls at
clock values 0 and 0, and a follow-up call at clock 1. -/
theorem breaker_opens_on_threshold_witness :
    (runFailsInvoked (Breaker.init 2 60000 10000) [0, 0]).2 = true ∧
    (runFailsInvoked (Breaker.init 2 60000 10000) [0, 0]).1.state = .OPEN ∧
    ((runFailsInvoked (Breaker.init 2 60000 10000) [0, 0]).1.execute 1
      true).invoked = false := by
  have h := breaker_opens_on_threshold 2 60000 10000 [0, 0]
    (by decide) (by decide)
  refine ⟨h.1, h.2.1, ?_⟩
  rw [h.2.2.2 1 true (by decide)]

/-- Claim C6: from `OPEN`, once `now - lastFailTime >= timeout`, the next
`execute` call first moves the breaker to `HALF_OPEN` (lazily, inside the
call), invokes the trial operation, and on success ends in `CLOSED` with
`failures = 0`. -/
theorem breaker_half_open_recovery (b : Breaker) (now : Int)
    (hs : b.state = .OPEN) (ht : b.timeout ≤ now - b.lastFailTime) :
    b.gate now = some { b with state := .HALF_OPEN } ∧
    (b.execute now true).invoked = true ∧
    (b.execute now true).result = .success ∧
    (b.execute now true).breaker.state = .CLOSED ∧
    (b.execute now true).breaker.failures = 0 := by
  have hgate : b.gate now = some { b with state := .HALF_OPEN } := by
    unfold Breaker.gate
    rw [if_pos hs, if_neg (by omega)]
  refine ⟨hgate, ?_, ?_, ?_, ?_⟩ <;>
    simp [Breaker.execute, hgate, Breaker.onSuccess]

/-- Witness for `breaker_half_open_recovery` on a concrete `OPEN` breaker
whose open window has elapsed. -/
theorem breaker_half_open_recovery_witness :
    ((Breaker.mk 2 100 10 2 0 .OPEN).execute 100 true).breaker.state =
      .CLOSED ∧
    ((Breaker.mk 2 100 10 2 0 .OPEN).execute 100 true).breaker.failures =
      0 := by
  have h := breaker_half_open_recovery (Breaker.mk 2 100 10 2 0 .OPEN) 100
    rfl (by decide)
  exact ⟨h.2.2.2.1, h.2.2.2.2⟩

/-- Claim C7: from `OPEN` with `failures >= failureThreshold` (as in any
reachable `OPEN` state), once the open window has elapsed, a failing
trial increments `failures` (staying at or above the threshold), stamps
`lastFailTime` with the failure time, returns to `OPEN`, and an
immediately following call inside the new window fails fast without
invoking its operation. -/
theorem breaker_half_open_refailure (b : Breaker) (now : Int)
    (hs : b.state = .OPEN) (ht : b.timeout ≤ now - b.lastFailTime)
    (hf : b.failureThreshold ≤ b.failures) :
    (b.execute now false).invoked = true ∧
    (b.execute now false).result = .opFailed ∧
    (b.execute now false).breaker.failures = b.failures + 1 ∧
    b.failureThreshold ≤ (b.execute now false).breaker.failures ∧
    (b.execute now false).breaker.lastFailTime = now ∧
    (b.execute now false).breaker.state = .OPEN ∧
    ∀ (t : Int) (op : Bool), t - now < b.timeout →
      (b.execute now false).breaker.execute t op =
        ⟨.circuitOpen, (b.execute now false).breaker, false⟩ := by
  have hgate : b.gate now = some { b with state := .HALF_OPEN } := by
    unfold Breaker.gate
    rw [if_pos hs, if_neg (by omega)]
  have hexec : b.execute now false =
      ⟨.opFailed, Breaker.onFailure { b with state := .HALF_OPEN } now,
        true⟩ := by
    unfold Breaker.execute
    rw [hgate]
    rfl
  have hstate :
      (Breaker.onFailure { b with state := .HALF_OPEN } now).state =
        .OPEN := by
    unfold Breaker.onFailure
    simp
    omega
  refine ⟨by rw [hexec], by rw [hexec], by rw [hexec]; rfl, ?_, ?_, ?_, ?_⟩
  · rw [hexec]
    show b.failureThreshold ≤ b.failures + 1
    omega
  · rw [hexec]
    rfl
  · rw [hexec]
    exact hstate
  · intro t op hlt
    rw [hexec]
    exact execute_open_fastfail _ t op hstate (by
      unfold Breaker.onFailure
      simpa using hlt)

/-- Witness for `breaker_half_open_refailure` on a concrete `OPEN`
breaker: the failing trial re-opens the window and the next call at
clock 101 is rejected without invoking its operation. -/
theorem breaker_half_open_refailure_witness :
    ((Breaker.mk 2 100 10 2 0 .OPEN).execute 100 false).breaker.failures =
      3 ∧
    (((Breaker.mk 2 100 10 2 0 .OPEN).execute 100 false).breaker.execute
      101 true).invoked = false := by
  have h := breaker_half_open_refailure (Breaker.mk 2 100 10 2 0 .OPEN)
    100 rfl (by decide) (by decide)
  refine ⟨h.2.2.1, ?_⟩
  rw [h.2.2.2.2.2.2 101 true (by decide)]

/-- The breaker invariant: a non-negative failure count, and whenever the
state is `OPEN` the count is at or above the threshold. -/
def BreakerInv (b : Breaker) : Prop :=
  0 ≤ b.failures ∧ (b.state = .OPEN → b.failureThreshold ≤ b.failures)

lemma gate_state_not_open (b : Breaker) (now : Int) (b1 : Breaker)
    (h : b.gate now = some b1) :
    b1.state = .HALF_OPEN ∨ (b1 = b ∧ b.state ≠ .OPEN) := by
  unfold Breaker.gate at h
  by_cases hs : b.state = .OPEN
  · rw [if_pos hs] at h
    by_cases ht : now - b.lastFailTime < b.timeout
    · rw [if_pos ht] at h
      cases h
    · rw [if_neg ht] at h
      left
      cases h
      rfl
  · rw [if_neg hs] at h
    right
    cases h
    exact ⟨rfl, hs⟩

lemma gate_fields (b : Breaker) (now : Int) (b1 : Breaker)
    (h : b.gate now = some b1) :
    b1.failureThreshold = b.failureThreshold ∧ b1.failures = b.failures := by
  unfold Breaker.gate at h
  by_cases hs : b.state = .OPEN
  · rw [if_pos hs] at h
    by_cases ht : now - b.lastFailTime < b.timeout
    · rw [if_pos ht] at h
      cases h
    · rw [if_neg ht] at h
      cases h
      exact ⟨rfl, rfl⟩
  · rw [if_neg hs] at h
    cases h
    exact ⟨rfl, rfl⟩

lemma execute_preserves_inv (b : Breaker) (t : Int) (op : Bool)
    (hinv : BreakerInv b) : BreakerInv (b.execute t op).breaker := by
  unfold Breaker.execute
  cases hg : b.gate t with
  | none => exact hinv
  | some b1 =>
      have hfields := gate_fields b t b1 hg
      have hb1inv : BreakerInv b1 := by
        rcases gate_state_not_open b t b1 hg with h1 | h1
        · exact ⟨by rw [hfields.2]; exact hinv.1, by rw [h1]; intro h; cases h⟩
        · rw [h1.1]
          exact hinv
      have hb1open : b1.state ≠ .OPEN := by
        rcases gate_state_not_open b t b1 hg with h1 | h1
        · rw [h1]
          intro h
          cases h
        · rw [h1.1]
          exact h1.2
      cases op with
      | true =>
          show BreakerInv b1.onSuccess
          constructor
          · show (0 : Int) ≤ 0
            exact le_refl 0
          · intro hst
            exfalso
            unfold Breaker.onSuccess at hst
            simp only at hst
            by_cases hh : b1.state = .HALF_OPEN
            · rw [if_pos hh] at hst
              cases hst
            · rw [if_neg hh] at hst
              exact hb1open hst
      | false =>
          show BreakerInv (b1.onFailure t)
          constructor
          · show (0 : Int) ≤ b1.failures + 1
            have := hb1inv.1
            omega
          · intro hst
            show b1.failureThreshold ≤ b1.failures + 1
            unfold Breaker.onFailure at hst
            simp only at hst
            by_cases hth : b1.failureThreshold ≤ b1.failures + 1
            · exact hth
            · rw [if_neg hth] at hst
              exact absurd hst hb1open

lemma execute_preserves_threshold (b : Breaker) (t : Int) (op : Bool) :
    (b.execute t op).breaker.failureThreshold = b.failureThreshold := by
  unfold Breaker.execute
  cases hg : b.gate t with
  | none => rfl
  | some b1 =>
      have hfields := gate_fields b t b1 hg
      by_cases hop : op = true
      · subst hop
        simpa [Breaker.onSuccess] using hfields.1
      · simp only [if_neg hop]
        simpa [Breaker.onFailure] using hfields.1

lemma runCalls_inv (steps : List (Int × Bool)) (b : Breaker)
    (hinv : BreakerInv b) :
    BreakerInv (runCalls b steps) ∧
    (runCalls b steps).failureThreshold = b.failureThreshold := by
  induction steps generalizing b with
  | nil => exact ⟨hinv, rfl⟩
  | cons step steps ih =>
      obtain ⟨t, op⟩ := step
      have h := ih (b.execute t op).breaker
        (execute_preserves_inv b t op hinv)
      exact ⟨h.1, h.2.trans (execute_preserves_threshold b t op)⟩

lemma execute_closes_only_on_success (b : Breaker) (t : Int) (op : Bool)
    (hs : b.state ≠ .CLOSED)
    (hc : (b.execute t op).breaker.state = .CLOSED) :
    op = true ∧ (b.execute t op).breaker.failures = 0 := by
  unfold Breaker.execute at hc ⊢
  cases hg : b.gate t with
  | none =>
      rw [hg] at hc
      exact absurd hc hs
  | some b1 =>
      cases op with
      | true => exact ⟨rfl, rfl⟩
      | false =>
          exfalso
          rw [hg] at hc
          replace hc : (b1.onFailure t).state = .CLOSED := hc
          unfold Breaker.onFailure at hc
          simp only at hc
          by_cases hth : b1.failureThreshold ≤ b1.failures + 1
          · rw [if_pos hth] at hc
            cases hc
          · rw [if_neg hth] at hc
            rcases gate_state_not_open b t b1 hg with h1 | h1
            · rw [h1] at hc
              cases hc
            · rw [h1.1] at hc
              exact hs hc

/-- Claim C10: after every sequence of `execute` calls from the initial
state, the failure count is non-negative and an `OPEN` state implies the
count is at or above the threshold; moreover, from any non-`CLOSED`
state, a call can end in `CLOSED` only when the trial operation
succeeded, which also resets the failure count to 0. -/
theorem breaker_invariant (thr tmo mon : Int) (steps : List (Int × Bool)) :
    0 ≤ (runCalls (Breaker.init thr tmo mon) steps).failures ∧
    ((runCalls (Breaker.init thr tmo mon) steps).state = .OPEN →
      thr ≤ (runCalls (Breaker.init thr tmo mon) steps).failures) ∧
    ∀ (t : Int) (op : Bool),
      (runCalls (Breaker.init thr tmo mon) steps).state ≠ .CLOSED →
      ((runCalls (Breaker.init thr tmo mon) steps).execute t
        op).breaker.state = .CLOSED →
      op = true ∧
      ((runCalls (Breaker.init thr tmo mon) steps).execute t
        op).breaker.failures = 0 := by
  have h := runCalls_inv steps (Breaker.init thr tmo mon)
    ⟨le_refl 0, by intro hs; cases hs⟩
  refine ⟨h.1.1, ?_, ?_⟩
  · intro hs
    have := h.1.2 hs
    rwa [h.2] at this
  · intro t op hs hc
    exact execute_closes_only_on_success _ t op hs hc

/-- Witness for `breaker_invariant` on a concrete run: two failures at
threshold 2 leave the breaker `OPEN` with `failures = 2`, and a
successful trial after the window closes it with `failures = 0`. -/
theorem breaker_invariant_witness :
    0 ≤ (runCalls (Breaker.init 2 100 10) [(0, false), (5, false)]).failures ∧
    2 ≤ (runCalls (Breaker.init 2 100 10) [(0, false), (5, false)]).failures ∧
    ((runCalls (Breaker.init 2 100 10) [(0, false), (5, false)]).execute 200
      true).breaker.failures = 0 := by
  have h := breaker_invariant 2 100 10 [(0, false), (5, false)]
  refine ⟨h.1, h.2.1 (by decide), ?_⟩
  exact (h.2.2 200 true (by decide) (by decide)).2

/-! ## TTL cache (`src/utils/cache.ts`)

`Cache` stores entries `{ data, timestamp, ttl }` in a `Map`; the map is
modelled as a function from keys to optional entries.  `set` stamps the
current time and applies the JavaScript-falsy default
`ttl || defaultTTL`; `get` performs the lazy-expiry read. -/

structure CacheEntry (α : Type) where
  data : α
  timestamp : Int
  ttl : Int
deriving DecidableEq, Repr

def CacheMap (α : Type) : Type := String → Option (CacheEntry α)

/-- An empty cache. -/
def CacheMap.empty (α : Type) : CacheMap α := fun _ => none

/-- `ttl || this.defaultTTL`: an omitted or `0` (falsy) TTL falls back to
the 300000 ms default. -/
def ttlOrDefault (ttl : Option Int) : Int :=
  match ttl with
  | none => 300000
  | some t => if t = 0 then 300000 else t

/-- `Cache.set`: store `{ data, timestamp: now, ttl: ttl || defaultTTL }`,
overwriting any prior entry for the key. -/
def CacheMap.set (m : CacheMap α) (key : String) (data : α) (now : Int)
    (ttl : Option Int) : CacheMap α :=
  fun k => if k = key then some ⟨data, now, ttlOrDefault ttl⟩ else m k

/-- `Map.delete` for one key. -/
def CacheMap.deleteKey (m : CacheMap α) (key : String) : CacheMap α :=
  fun k => if k = key then none else m k

/-- `Cache.get`: absent key gives `none`; an entry with
`now - timestamp > ttl` is deleted and `none` is returned; otherwise the
stored data is returned with the map unchanged. -/
def CacheMap.get (m : CacheMap α) (key : String) (now : Int) :
    Option α × CacheMap α :=
  match m key with
  | none => (none, m)
  | some e =>
      if now - e.timestamp > e.ttl then (none, m.deleteKey key)
      else (some e.data, m)

lemma cacheGet_absent (m : CacheMap α) (k : String) (now : Int)
    (h : m k = none) : m.get k now = (none, m) := by
  unfold CacheMap.get
  rw [h]

lemma cacheGet_live (m : CacheMap α) (k : String) (now : Int)
    (e : CacheEntry α) (he : m k = some e)
    (hlive : now - e.timestamp ≤ e.ttl) :
    m.get k now = (some e.data, m) := by
  unfold CacheMap.get
  rw [he]
  show (if now - e.timestamp > e.ttl then (none, m.deleteKey k)
    else (some e.data, m)) = (some e.data, m)
  rw [if_neg (by omega)]

lemma cacheGet_expired (m : CacheMap α) (k : String) (now : Int)
    (e : CacheEntry α) (he : m k = some e)
    (hexp : e.ttl < now - e.timestamp) :
    (m.get k now).1 = none ∧ (m.get k now).2 k = none := by
  unfold CacheMap.get
  rw [he]
  show (if now - e.timestamp > e.ttl then (none, m.deleteKey k)
      else (some e.data, m)).1 = none ∧
    (if now - e.timestamp > e.ttl then (none, m.deleteKey k)
      else (some e.data, m)).2 k = none
  rw [if_pos (by omega)]
  exact ⟨rfl, by unfold CacheMap.deleteKey; simp⟩

/-- Claim C4: `get` returns the stored value exactly on a live entry
(`now - timestamp <= ttl`), deletes and returns `none` on an expired
entry, and returns `none` on an absent key; an expired value is never
returned. -/
theorem cache_get_spec (α : Type) (m : CacheMap α) (k : String)
    (now : Int) :
    (m k = none → m.get k now = (none, m)) ∧
    (∀ e : CacheEntry α, m k = some e → now - e.timestamp ≤ e.ttl →
      m.get k now = (some e.data, m)) ∧
    (∀ e : CacheEntry α, m k = some e → e.ttl < now - e.timestamp →
      (m.get k now).1 = none ∧ (m.get k now).2 k = none) :=
  ⟨cacheGet_absent m k now, fun e => cacheGet_live m k now e,
    fun e => cacheGet_expired m k now e⟩

/-- Witness for `cache_get_spec`: a concrete entry is served while live
and reported absent once expired. -/
theorem cache_get_spec_witness :
    ((CacheMap.empty Int).set ("k") 7 0 (some 1000)).get ("k") 500 =
      (some 7, (CacheMap.empty Int).set ("k") 7 0 (some 1000)) ∧
    (((CacheMap.empty Int).set ("k") 7 0 (some 1000)).get ("k") 2000).1 =
      none := by
  have hm : ((CacheMap.empty Int).set ("k") 7 0 (some 1000)) "k" =
      some ⟨7, 0, 1000⟩ := by
    unfold CacheMap.set ttlOrDefault
    rw [if_pos rfl]
    norm_num
  constructor
  · exact (cache_get_spec Int _ ("k") 500).2.1 ⟨7, 0, 1000⟩ hm (by norm_num)
  · exact ((cache_get_spec Int _ ("k") 2000).2.2 ⟨7, 0, 1000⟩ hm
      (by norm_num)).1

/-- Claim C9: a second `set` on the same key overwrites the entry and
resets its age — `get` serves the second value, and liveness is decided
by `now - t2` against the second TTL, independent of the first write. -/
theorem cache_overwrite_spec (α : Type) (m : CacheMap α) (k : String)
    (v1 v2 : α) (t1 t2 : Int) (ttl1 ttl2 : Option Int) (now : Int) :
    ((m.set k v1 t1 ttl1).set k v2 t2 ttl2) k =
      some ⟨v2, t2, ttlOrDefault ttl2⟩ ∧
    (now - t2 ≤ ttlOrDefault ttl2 →
      ((m.set k v1 t1 ttl1).set k v2 t2 ttl2).get k now =
        (some v2, (m.set k v1 t1 ttl1).set k v2 t2 ttl2)) ∧
    (ttlOrDefault ttl2 < now - t2 →
      (((m.set k v1 t1 ttl1).set k v2 t2 ttl2).get k now).1 = none) := by
  have hm : ((m.set k v1 t1 ttl1).set k v2 t2 ttl2) k =
      some ⟨v2, t2, ttlOrDefault ttl2⟩ := by
    unfold CacheMap.set
    rw [if_pos rfl]
  refine ⟨hm, ?_, ?_⟩
  · intro hlive
    exact cacheGet_live _ k now _ hm hlive
  · intro hexp
    exact (cacheGet_expired _ k now _ hm hexp).1

/-- Witness for `cache_overwrite_spec`: after overwriting at time 100
with TTL 50, the read at 140 serves the second value and the read at 200
misses, even though the first write (TTL 1000 at time 0) would still be
live. -/
theorem cache_overwrite_spec_witness :
    ((((CacheMap.empty Int).set ("k") 1 0 (some 1000)).set ("k") 2 100
      (some 50)).get ("k") 140).1 = some 2 ∧
    ((((CacheMap.empty Int).set ("k") 1 0 (some 1000)).set ("k") 2 100
      (some 50)).get ("k") 200).1 = none := by
  have h140 := cache_overwrite_spec Int (CacheMap.empty Int) ("k") 1 2 0
    100 (some 1000) (some 50) 140
  have h200 := cache_overwrite_spec Int (CacheMap.empty Int) ("k") 1 2 0
    100 (some 1000) (some 50) 200
  constructor
  · rw [h140.2.1 (by unfold ttlOrDefault; norm_num)]
  · exact h200.2.2 (by unfold ttlOrDefault; norm_num)

/-! ## Sanitizer (`src/utils/validation.ts`)

`sanitizeObject` recursively trims strings, maps arrays element-wise and
objects key-by-key, and passes `null` and other scalars through.  JSON
values are modelled by `Json`; `String.prototype.trim` is modelled by
dropping JavaScript whitespace from both ends. -/

/-- JavaScript whitespace (the characters of `\s` relevant here: tab,
line feed, vertical tab, form feed, carriage return, space, no-break
space). -/
def isJsWs (c : Char) : Bool :=
  c = ' ' || c = '\t' || c = '\n' || c = '\x0b' || c = '\x0c' ||
    c = '\r' || c = ' '

/-- Drop trailing characters satisfying `p`. -/
def dropEndWhile (p : Char → Bool) (l : List Char) : List Char :=
  (l.reverse.dropWhile p).reverse

/-- `String.prototype.trim`: remove surrounding JavaScript whitespace. -/
def jsTrim (s : String) : String :=
  ⟨dropEndWhile isJsWs (s.data.dropWhile isJsWs)⟩

lemma dropWhile_self_of_head (p : Char → Bool) (l : List Char)
    (h : ∀ c, l.head? = some c → p c = false) : l.dropWhile p = l := by
  cases l with
  | nil => rfl
  | cons c cs =>
      unfold List.dropWhile
      rw [h c rfl]

lemma head_dropWhile_false (p : Char → Bool) (l : List Char) :
    ∀ c, (l.dropWhile p).head? = some c → p c = false := by
  induction l with
  | nil =>
      intro c h
      cases h
  | cons x xs ih =>
      intro c h
      by_cases hp : p x
      · rw [List.dropWhile_cons_of_pos hp] at h
        exact ih c h
      · rw [List.dropWhile_cons_of_neg hp] at h
        simp at h
        rw [← h]
        simpa using hp

lemma exists_dropWhile_suffix (p : Char → Bool) (l : List Char) :
    ∃ t, l = t ++ l.dropWhile p := by
  induction l with
  | nil => exact ⟨[], rfl⟩
  | cons x xs ih =>
      by_cases hp : p x
      · obtain ⟨t, ht⟩ := ih
        rw [List.dropWhile_cons_of_pos hp]
        exact ⟨x :: t, by rw [List.cons_append, ← ht]⟩
      · rw [List.dropWhile_cons_of_neg hp]
        exact ⟨[], rfl⟩

lemma dropWhile_idem (p : Char → Bool) (l : List Char) :
    (l.dropWhile p).dropWhile p = l.dropWhile p :=
  dropWhile_self_of_head p _ (head_dropWhile_false p l)

lemma dropEndWhile_idem (p : Char → Bool) (l : List Char) :
    dropEndWhile p (dropEndWhile p l) = dropEndWhile p l := by
  unfold dropEndWhile
  rw [List.reverse_reverse, dropWhile_idem]

lemma head_dropEndWhile (p : Char → Bool) (l : List Char)
    (h : ∀ c, l.head? = some c → p c = false) :
    ∀ c, (dropEndWhile p l).head? = some c → p c = false := by
  intro c hc
  obtain ⟨t, ht⟩ := exists_dropWhile_suffix p l.reverse
  have hl : l = dropEndWhile p l ++ t.reverse := by
    unfold dropEndWhile
    calc l = l.reverse.reverse := by rw [List.reverse_reverse]
    _ = (t ++ l.reverse.dropWhile p).reverse := by rw [← ht]
    _ = (l.reverse.dropWhile p).reverse ++ t.reverse := by
        rw [List.reverse_append]
  apply h c
  rw [hl]
  cases hd : dropEndWhile p l with
  | nil =>
      rw [hd] at hc
      cases hc
  | cons y ys =>
      rw [hd] at hc
      simp at hc
      simp [hc]

/-- `jsTrim` is idempotent. -/
lemma jsTrim_idem (s : String) : jsTrim (jsTrim s) = jsTrim s := by
  unfold jsTrim
  have h1 : ∀ c, ((s.data.dropWhile isJsWs).dropWhile isJsWs).head? =
      some c → isJsWs c = false := head_dropWhile_false isJsWs _
  have hleft : (dropEndWhile isJsWs
      (s.data.dropWhile isJsWs)).dropWhile isJsWs =
      dropEndWhile isJsWs (s.data.dropWhile isJsWs) :=
    dropWhile_self_of_head isJsWs _
      (head_dropEndWhile isJsWs _ (head_dropWhile_false isJsWs s.data))
  simp only [String.data]
  rw [hleft, dropEndWhile_idem]

/-- JSON-shaped values: `null`, booleans, numbers, strings, arrays and
keyed objects. -/
inductive Json where
  | null
  | boolean (b : Bool)
  | number (n : Int)
  | str (s : String)
  | arr (items : List Json)
  | obj (fields : List (String × Json))

mutual

/-- `sanitizeObject`: `null` passes through, strings are trimmed, arrays
are mapped element-wise, objects are rebuilt key-by-key with sanitized
values, and all other scalars pass through unchanged. -/
def sanitizeObject : Json → Json
  | .null => .null
  | .str s => .str (jsTrim s)
  | .arr items => .arr (sanitizeList items)
  | .obj fields => .obj (sanitizeFields fields)
  | .boolean b => .boolean b
  | .number n => .number n

def sanitizeList : List Json → List Json
  | [] => []
  | x :: xs => sanitizeObject x :: sanitizeList xs

def sanitizeFields : List (String × Json) → List (String × Json)
  | [] => []
  | kv :: rest => (kv.1, sanitizeObject kv.2) :: sanitizeFields rest

end

lemma sanitizeList_eq_map (items : List Json) :
    sanitizeList items = items.map sanitizeObject := by
  induction items with
  | nil => rfl
  | cons x xs ih => rw [sanitizeList, ih, List.map_cons]

lemma sanitizeFields_eq_map (fields : List (String × Json)) :
    sanitizeFields fields =
      fields.map (fun kv => (kv.1, sanitizeObject kv.2)) := by
  induction fields with
  | nil => rfl
  | cons kv rest ih => rw [sanitizeFields, ih, List.map_cons]

mutual

theorem sanitizeObject_idem :
    ∀ j : Json, sanitizeObject (sanitizeObject j) = sanitizeObject j
  | .null => rfl
  | .boolean _ => rfl
  | .number _ => rfl
  | .str s => by rw [sanitizeObject, sanitizeObject, jsTrim_idem]
  | .arr items => by
      rw [sanitizeObject, sanitizeObject, sanitizeList_idem]
  | .obj fields => by
      rw [sanitizeObject, sanitizeObject, sanitizeFields_idem]

theorem sanitizeList_idem :
    ∀ items : List Json, sanitizeList (sanitizeList items) =
      sanitizeList items
  | [] => rfl
  | x :: xs => by
      rw [sanitizeList, sanitizeList, sanitizeObject_idem,
        sanitizeList_idem]

theorem sanitizeFields_idem :
    ∀ fields : List (String × Json),
      sanitizeFields (sanitizeFields fields) = sanitizeFields fields
  | [] => rfl
  | kv :: rest => by
      rw [sanitizeFields, sanitizeFields, sanitizeObject_idem,
        sanitizeFields_idem]

end

/-- Claim C8: `sanitizeObject` trims every string, maps arrays
element-wise, rebuilds objects key-by-key preserving the key list,
passes `null` and the other scalars through unchanged, and is
idempotent. -/
theorem sanitize_spec :
    (∀ s, sanitizeObject (.str s) = .str (jsTrim s)) ∧
    (∀ items, sanitizeObject (.arr items) =
      .arr (items.map sanitizeObject)) ∧
    (∀ fields, sanitizeObject (.obj fields) =
      .obj (fields.map (fun kv => (kv.1, sanitizeObject kv.2)))) ∧
    (∀ fields, (sanitizeFields fields).map Prod.fst =
      fields.map Prod.fst) ∧
    sanitizeObject .null = .null ∧
    (∀ b, sanitizeObject (.boolean b) = .boolean b) ∧
    (∀ n, sanitizeObject (.number n) = .number n) ∧
    (∀ j, sanitizeObject (sanitizeObject j) = sanitizeObject j) := by
  refine ⟨fun s => rfl, ?_, ?_, ?_, rfl, fun b => rfl, fun n => rfl,
    sanitizeObject_idem⟩
  · intro items
    rw [sanitizeObject, sanitizeList_eq_map]
  · intro fields
    rw [sanitizeObject, sanitizeFields_eq_map]
  · intro fields
    rw [sanitizeFields_eq_map, List.map_map]
    rfl

/-! ## Tool handlers: error normalization (`catch` clauses)

Every handler wraps its body in `try/catch`.  The catch clause returns
`{ error: 'Invalid ...', details }` for a Zod validation error, and
otherwise `{ error: <generic text>, message: error instanceof Error ?
error.message : 'Unknown error' }`.  A thrown value is modelled by
`JsError`; the returned object by `ErrorResult`. -/

inductive JsError where
  | zodError (issues : List String)
  | jsError (message : String)
  | nonError
deriving DecidableEq, Repr

structure ErrorResult where
  error : String
  details : Option (List String)
  message : Option String
deriving DecidableEq, Repr

/-- The shared catch-clause shape of all five handlers, parameterized by
the two literal strings each handler uses. -/
def catchClause (invalidMsg genericMsg : String) : JsError → ErrorResult
  | .zodError issues => ⟨invalidMsg, some issues, none⟩
  | .jsError m => ⟨genericMsg, none, some m⟩
  | .nonError => ⟨genericMsg, none, some ("Unknown error")⟩

def handleGetMotionComponent_catch : JsError → ErrorResult :=
  catchClause ("Invalid parameters")
    ("An error occurred while fetching component information")

def handleListMotionComponents_catch : JsError → ErrorResult :=
  catchClause ("Invalid parameters")
    ("An error occurred while listing components")

def handleGetMotionExample_catch : JsError → ErrorResult :=
  catchClause ("Invalid parameters")
    ("An error occurred while fetching example")

def handleSearchMotionExamples_catch : JsError → ErrorResult :=
  catchClause ("Invalid search query")
    ("An error occurred while searching examples")

def handleGetMotionDocs_catch : JsError → ErrorResult :=
  catchClause ("Invalid topic parameter")
    ("An error occurred while fetching documentation")

/-- Counterexample to claim C1: a handler hit by an unexpected internal
error does return a structured result, but that result carries the
internal exception's message text verbatim in its `message` field. -/
theorem internal_error_message_leaks :
    (handleGetMotionComponent_catch
      (.jsError ("connect ECONNREFUSED 127.0.0.1:443"))).message =
      some ("connect ECONNREFUSED 127.0.0.1:443") := rfl

/-- Claim C1 as amended: every handler's catch clause yields a structured
error result (it never rethrows): a fixed per-tool generic `error` string
for non-validation errors, `details` only for validation errors, and a
`message` field equal to the internal exception's message verbatim
(`'Unknown error'` for a non-`Error` throw). -/
theorem handlers_catch_normalize (m : String) (issues : List String) :
    (handleGetMotionComponent_catch (.zodError issues) =
      ⟨"Invalid parameters", some issues, none⟩) ∧
    (handleGetMotionComponent_catch (.jsError m) =
      ⟨"An error occurred while fetching component information", none,
        some m⟩) ∧
    (handleListMotionComponents_catch (.jsError m) =
      ⟨"An error occurred while listing components", none, some m⟩) ∧
    (handleGetMotionExample_catch (.jsError m) =
      ⟨"An error occurred while fetching example", none, some m⟩) ∧
    (handleSearchMotionExamples_catch (.jsError m) =
      ⟨"An error occurred while searching examples", none, some m⟩) ∧
    (handleGetMotionDocs_catch (.jsError m) =
      ⟨"An error occurred while fetching documentation", none, some m⟩) ∧
    (handleGetMotionComponent_catch .nonError =
      ⟨"An error occurred while fetching component information", none,
        some ("Unknown error")⟩) :=
  ⟨rfl, rfl, rfl, rfl, rfl, rfl, rfl⟩

/-! ## Tool handlers: validation and cache-write TTL policy

Each handler validates its parameter with a Zod schema (modelled as a
boolean predicate), looks the value up in a static table (modelled by its
key list, which is all the lookup consults), and finally stores the
result in the cache with a literal TTL.  `_store` returns `none` when
validation throws (no cache write happens), and otherwise the
`(outcome, ttl)` of the single `cache.set` call on the miss path. -/

/-- `componentNameSchema`: nonempty, at most 100 chars, matching
`[a-zA-Z0-9._-]+`. -/
def componentNameSchema (s : String) : Bool :=
  decide (1 ≤ s.length) && decide (s.length ≤ 100) &&
    s.data.all (fun c => c.isAlphanum || c = '.' || c = '_' || c = '-')

/-- `searchQuerySchema`: nonempty, at most 200 chars. -/
def searchQuerySchema (s : String) : Bool :=
  decide (1 ≤ s.length) && decide (s.length ≤ 200)

/-- The category whitelist of `categorySchema` (note `examples` is
accepted here but absent from `MOTION_COMPONENTS_LIST`). -/
def categorySchemaAllowed : List String :=
  ["react", "javascript", "hooks", "gestures", "layout", "examples"]

/-- `categorySchema`: optional; `!val || allowed.includes(val)`. -/
def categorySchema (s : String) : Bool :=
  s = "" || categorySchemaAllowed.contains s

/-- `topicSchema`: nonempty, at most 100 chars, matching
`[a-zA-Z0-9._-]+`. -/
def topicSchema (s : String) : Bool :=
  decide (1 ≤ s.length) && decide (s.length ≤ 100) &&
    s.data.all (fun c => c.isAlphanum || c = '.' || c = '_' || c = '-')

/-- `exampleTypeSchema`: nonempty, at most 100 chars. -/
def exampleTypeSchema (s : String) : Bool :=
  decide (1 ≤ s.length) && decide (s.length ≤ 100)

/-- Keys of the `MOTION_COMPONENTS` table in
`get-motion-component.ts` (the lookup consults only key membership). -/
def MOTION_COMPONENTS_keys : List String :=
  ["motion.div", "motion.button", "animate", "timeline", "useAnimate",
    "useSpring", "useScroll"]

/-- Keys of the `MOTION_COMPONENTS_LIST` table in
`list-motion-components.ts`. -/
def MOTION_COMPONENTS_LIST_keys : List String :=
  ["react", "javascript", "hooks", "gestures", "layout"]

/-- Keys of the `MOTION_EXAMPLES` table in `get-motion-example.ts`. -/
def MOTION_EXAMPLES_keys : List String :=
  ["spring-animation", "drag-gesture", "layout-animation",
    "scroll-triggered", "stagger-animation"]

/-- Keys of the `MOTION_DOCS` table in `get-motion-docs.ts`. -/
def MOTION_DOCS_keys : List String :=
  ["getting-started", "animation-controls", "gestures",
    "layout-animations", "performance", "scroll-animations"]

inductive LookupOutcome where
  | ok
  | notFound
deriving DecidableEq, Repr

/-- `get_motion_component`: both the not-found result and the success
result are stored with `300000` (5 minutes). -/
def handleGetMotionComponent_store (componentName : String) :
    Option (LookupOutcome × Int) :=
  if componentNameSchema componentName then
    some (if MOTION_COMPONENTS_keys.contains componentName then
      (.ok, 300000) else (.notFound, 300000))
  else none

/-- `list_motion_components`: a falsy (absent or empty) category lists
everything; a schema-invalid category throws (no write); the single
`cache.set` at the end of the miss path stores with `600000`
(10 minutes) — including the `Invalid category` error result reachable
via the schema-valid category `examples`. -/
def handleListMotionComponents_store (category : Option String) :
    Option (LookupOutcome × Int) :=
  match category with
  | none => some (.ok, 600000)
  | some c =>
      if c = "" then some (.ok, 600000)
      else if categorySchema c then
        some (if MOTION_COMPONENTS_LIST_keys.contains c then
          (.ok, 600000) else (.notFound, 600000))
      else none

/-- `get_motion_example`: a not-found result is stored with `300000`
(5 minutes), a success with `600000` (10 minutes). -/
def handleGetMotionExample_store (exampleType : String) :
    Option (LookupOutcome × Int) :=
  if exampleTypeSchema exampleType then
    some (if MOTION_EXAMPLES_keys.contains exampleType then
      (.ok, 600000) else (.notFound, 300000))
  else none

/-- `search_motion_examples`: the search result (success-shaped even for
zero hits) is stored with `300000` (5 minutes). -/
def handleSearchMotionExamples_store (query : String) :
    Option (LookupOutcome × Int) :=
  if searchQuerySchema query then some (.ok, 300000) else none

/-- `get_motion_docs`: a not-found result is stored with `300000`
(5 minutes), a success with `1800000` (30 minutes). -/
def handleGetMotionDocs_store (topic : String) :
    Option (LookupOutcome × Int) :=
  if topicSchema topic then
    some (if MOTION_DOCS_keys.contains topic then
      (.ok, 1800000) else (.notFound, 300000))
  else none

lemma list_store_some (s : String) :
    handleListMotionComponents_store (some s) =
      if s = "" then some (.ok, 600000)
      else if categorySchema s then
        some (if MOTION_COMPONENTS_LIST_keys.contains s then
          (LookupOutcome.ok, 600000) else (.notFound, 600000))
      else none := rfl

/-- Counterexample to claim C3: the component tool stores the successful
lookup of `animate` with a 5-minute TTL (not 10–30 minutes), and the
list tool stores the `Invalid category` error result for the
schema-valid category `examples` with a 10-minute TTL (not 5). -/
theorem ttl_policy_counterexample :
    handleGetMotionComponent_store ("animate") =
      some (.ok, 300000) ∧
    handleListMotionComponents_store (some ("examples")) =
      some (.notFound, 600000) ∧
    ¬ ((600000 : Int) ≤ 300000) ∧ (600000 : Int) ≠ 300000 := by
  refine ⟨by decide, by decide, by decide, by decide⟩

/-- Claim C3 as amended: each tool stores with a fixed per-branch TTL —
component: 5 minutes for both branches; list: 10 minutes for both
branches (including the `examples` error result); example: 10 minutes on
success, 5 on not-found; search: always 5 minutes; docs: 30 minutes on
success, 5 on not-found.  A `none` store means validation threw and
nothing was cached. -/
theorem ttl_policy_amended :
    (∀ s, handleGetMotionComponent_store s = none ∨
      handleGetMotionComponent_store s = some (.ok, 300000) ∨
      handleGetMotionComponent_store s = some (.notFound, 300000)) ∧
    (∀ c, handleListMotionComponents_store c = none ∨
      handleListMotionComponents_store c = some (.ok, 600000) ∨
      handleListMotionComponents_store c = some (.notFound, 600000)) ∧
    (∀ s, handleGetMotionExample_store s = none ∨
      handleGetMotionExample_store s = some (.ok, 600000) ∨
      handleGetMotionExample_store s = some (.notFound, 300000)) ∧
    (∀ s, handleSearchMotionExamples_store s = none ∨
      handleSearchMotionExamples_store s = some (.ok, 300000)) ∧
    (∀ s, handleGetMotionDocs_store s = none ∨
      handleGetMotionDocs_store s = some (.ok, 1800000) ∨
      handleGetMotionDocs_store s = some (.notFound, 300000)) := by
  refine ⟨?_, ?_, ?_, ?_, ?_⟩
  · intro s
    unfold handleGetMotionComponent_store
    by_cases h1 : componentNameSchema s = true
    · rw [if_pos h1]
      by_cases h2 : MOTION_COMPONENTS_keys.contains s = true
      · rw [if_pos h2]
        exact Or.inr (Or.inl rfl)
      · rw [if_neg h2]
        exact Or.inr (Or.inr rfl)
    · rw [if_neg h1]
      exact Or.inl rfl
  · intro c
    cases c with
    | none => exact Or.inr (Or.inl rfl)
    | some s =>
        rw [list_store_some]
        by_cases h0 : s = ""
        · rw [if_pos h0]
          exact Or.inr (Or.inl rfl)
        · rw [if_neg h0]
          by_cases h1 : categorySchema s = true
          · rw [if_pos h1]
            by_cases h2 : MOTION_COMPONENTS_LIST_keys.contains s = true
            · rw [if_pos h2]
              exact Or.inr (Or.inl rfl)
            · rw [if_neg h2]
              exact Or.inr (Or.inr rfl)
          · rw [if_neg h1]
            exact Or.inl rfl
  · intro s
    unfold handleGetMotionExample_store
    by_cases h1 : exampleTypeSchema s = true
    · rw [if_pos h1]
      by_cases h2 : MOTION_EXAMPLES_keys.contains s = true
      · rw [if_pos h2]
        exact Or.inr (Or.inl rfl)
      · rw [if_neg h2]
        exact Or.inr (Or.inr rfl)
    · rw [if_neg h1]
      exact Or.inl rfl
  · intro s
    unfold handleSearchMotionExamples_store
    by_cases h1 : searchQuerySchema s = true
    · rw [if_pos h1]
      exact Or.inr rfl
    · rw [if_neg h1]
      exact Or.inl rfl
  · intro s
    unfold handleGetMotionDocs_store
    by_cases h1 : topicSchema s = true
    · rw [if_pos h1]
      by_cases h2 : MOTION_DOCS_keys.contains s = true
      · rw [if_pos h2]
        exact Or.inr (Or.inl rfl)
      · rw [if_neg h2]
        exact Or.inr (Or.inr rfl)
    · rw [if_neg h1]
      exact Or.inl rfl

/-! ## Cache keys and the search tool (`search-motion-examples.ts`)

Each handler derives its cache key by prefixing its parameter:
`motion-component-`, `motion-components-list-` (with `category || 'all'`),
`motion-example-`, `motion-docs-`, and for search
`motion-search-` + `query.toLowerCase().replace(/\s+/g, '-')`.  The
search itself lowercases the query, splits it on whitespace runs, and
keeps every example whose joined searchable text contains one of the
terms. -/

lemma length_dropWhile_le (p : Char → Bool) (l : List Char) :
    (l.dropWhile p).length ≤ l.length := by
  induction l with
  | nil => simp
  | cons x xs ih =>
      by_cases hp : p x
      · rw [List.dropWhile_cons_of_pos hp]
        simp only [List.length_cons]
        omega
      · rw [List.dropWhile_cons_of_neg hp]

/-- `String.prototype.toLowerCase` (character-wise; the payloads are
ASCII). -/
def jsToLower (s : String) : String := ⟨s.data.map Char.toLower⟩

/-- `split(/\s+/)`: split on maximal whitespace runs (leading or trailing
runs contribute empty fragments, as in JavaScript).  `inRun` records
whether the previous character belonged to the current separator run. -/
def splitWsAux (inRun : Bool) (acc : List Char) :
    List Char → List (List Char)
  | [] => [acc.reverse]
  | c :: rest =>
      if isJsWs c then
        if inRun then splitWsAux true acc rest
        else acc.reverse :: splitWsAux true [] rest
      else splitWsAux false (c :: acc) rest

def jsSplitWs (s : String) : List String :=
  (splitWsAux false [] s.data).map (fun cs => ⟨cs⟩)

/-- `replace(/\s+/g, '-')`: collapse each maximal whitespace run to a
single hyphen.  `inRun` records whether the previous character belonged
to the run already replaced by `-`. -/
def collapseWsAux (inRun : Bool) : List Char → List Char
  | [] => []
  | c :: rest =>
      if isJsWs c then
        if inRun then collapseWsAux true rest
        else '-' :: collapseWsAux true rest
      else c :: collapseWsAux false rest

def collapseWsRuns (cs : List Char) : List Char :=
  collapseWsAux false cs

/-- `query.toLowerCase().replace(/\s+/g, '-')`. -/
def normalizeQuery (q : String) : String :=
  ⟨collapseWsRuns (jsToLower q).data⟩

def componentCacheKey (componentName : String) : String :=
  "motion-component-" ++ componentName

/-- `motion-components-list-${category || 'all'}` (`''` is falsy). -/
def listCacheKey (category : Option String) : String :=
  "motion-components-list-" ++
    (match category with
      | none => "all"
      | some c => if c = "" then "all" else c)

def exampleCacheKey (exampleType : String) : String :=
  "motion-example-" ++ exampleType

def docsCacheKey (topic : String) : String :=
  "motion-docs-" ++ topic

def searchCacheKey (query : String) : String :=
  "motion-search-" ++ normalizeQuery query

/-- `haystack.includes(needle)` on character lists. -/
def containsSub (hay needle : List Char) : Bool :=
  match hay with
  | [] => needle.isEmpty
  | c :: t => needle.isPrefixOf (c :: t) || containsSub t needle

def jsIncludes (hay needle : String) : Bool :=
  containsSub hay.data needle.data

structure SearchExample where
  id : String
  title : String
  description : String
  tags : List String
  category : String
  difficulty : String
  code : String

/-- The `SEARCHABLE_EXAMPLES` table of `search-motion-examples.ts`. -/
def SEARCHABLE_EXAMPLES : List SearchExample :=
  [{ id := "spring-button"
     title := "Spring Button Animation"
     description := "Interactive button with spring physics on hover and tap"
     tags := ["button", "spring", "hover", "tap", "interactive"]
     category := "gestures"
     difficulty := "beginner"
     code := "<motion.button\n  whileHover=\x7b\x7b scale: 1.05 \x7d\x7d\n  whileTap=\x7b\x7b scale: 0.95 \x7d\x7d\n  transition=\x7b\x7b type: \"spring\", stiffness: 400, damping: 17 \x7d\x7d\n>\n  Click me\n</motion.button>" },
   { id := "drag-card"
     title := "Draggable Card"
     description := "Card component that can be dragged with constraints and elastic behavior"
     tags := ["drag", "card", "constraints", "elastic", "gesture"]
     category := "gestures"
     difficulty := "intermediate"
     code := "<motion.div\n  drag\n  dragConstraints=\x7b\x7b left: -100, right: 100, top: -100, bottom: 100 \x7d\x7d\n  dragElastic=\x7b0.1\x7d\n  whileDrag=\x7b\x7b scale: 1.1 \x7d\x7d\n>\n  Drag me around!\n</motion.div>" },
   { id := "fade-in-list"
     title := "Staggered Fade-in List"
     description := "List items that fade in with staggered timing"
     tags := ["list", "stagger", "fade", "opacity", "animation"]
     category := "animations"
     difficulty := "beginner"
     code := "\x7bitems.map((item, index) => (\n  <motion.div\n    key=\x7bitem.id\x7d\n    initial=\x7b\x7b opacity: 0, y: 20 \x7d\x7d\n    animate=\x7b\x7b opacity: 1, y: 0 \x7d\x7d\n    transition=\x7b\x7b delay: index * 0.1 \x7d\x7d\n  >\n    \x7bitem.content\x7d\n  </motion.div>\n))\x7d" },
   { id := "parallax-scroll"
     title := "Parallax Scroll Effect"
     description := "Background elements that move at different speeds during scroll"
     tags := ["parallax", "scroll", "background", "transform", "useScroll"]
     category := "scroll"
     difficulty := "advanced"
     code := "const \x7b scrollYProgress \x7d = useScroll();\nconst y = useTransform(scrollYProgress, [0, 1], [\x270%\x27, \x2750%\x27]);\n\nreturn (\n  <motion.div\n    style=\x7b\x7b y \x7d\x7d\n    className=\"parallax-background\"\n  >\n    Background content\n  </motion.div>\n);" },
   { id := "modal-animation"
     title := "Animated Modal"
     description := "Modal that slides in from bottom with backdrop fade"
     tags := ["modal", "slide", "backdrop", "overlay", "animate-presence"]
     category := "layout"
     difficulty := "intermediate"
     code := "<AnimatePresence>\n  \x7bisOpen && (\n    <>\n      <motion.div\n        initial=\x7b\x7b opacity: 0 \x7d\x7d\n        animate=\x7b\x7b opacity: 1 \x7d\x7d\n        exit=\x7b\x7b opacity: 0 \x7d\x7d\n        className=\"backdrop\"\n      />\n      <motion.div\n        initial=\x7b\x7b y: \"100%\" \x7d\x7d\n        animate=\x7b\x7b y: 0 \x7d\x7d\n        exit=\x7b\x7b y: \"100%\" \x7d\x7d\n        className=\"modal\"\n      >\n        Modal content\n      </motion.div>\n    </>\n  )\x7d\n</AnimatePresence>" },
   { id := "loading-spinner"
     title := "Loading Spinner"
     description := "Rotating loading spinner with smooth animation"
     tags := ["loading", "spinner", "rotate", "infinite", "transition"]
     category := "animations"
     difficulty := "beginner"
     code := "<motion.div\n  animate=\x7b\x7b rotate: 360 \x7d\x7d\n  transition=\x7b\x7b\n    duration: 1,\n    repeat: Infinity,\n    ease: \"linear\"\n  \x7d\x7d\n  className=\"spinner\"\n/>" },
   { id := "hero-text-animation"
     title := "Hero Text Animation"
     description := "Large hero text that animates in with typewriter effect"
     tags := ["text", "hero", "typewriter", "stagger", "letters"]
     category := "text"
     difficulty := "advanced"
     code := "const text = \"Hello World\";\nconst letters = Array.from(text);\n\nreturn (\n  <div>\n    \x7bletters.map((letter, index) => (\n      <motion.span\n        key=\x7bindex\x7d\n        initial=\x7b\x7b opacity: 0, y: 50 \x7d\x7d\n        animate=\x7b\x7b opacity: 1, y: 0 \x7d\x7d\n        transition=\x7b\x7b delay: index * 0.1 \x7d\x7d\n      >\n        \x7bletter === \" \" ? \"\\u00A0\" : letter\x7d\n      </motion.span>\n    ))\x7d\n  </div>\n);" },
   { id := "image-gallery"
     title := "Animated Image Gallery"
     description := "Image gallery with hover effects and layout animations"
     tags := ["gallery", "images", "grid", "hover", "layout"]
     category := "layout"
     difficulty := "intermediate"
     code := "<motion.div\n  layout\n  whileHover=\x7b\x7b scale: 1.05 \x7d\x7d\n  className=\"image-container\"\n>\n  <motion.img\n    src=\x7bimage.src\x7d\n    alt=\x7bimage.alt\x7d\n    layoutId=\x7bimage.id\x7d\n  />\n</motion.div>" },
   { id := "navigation-menu"
     title := "Animated Navigation Menu"
     description := "Mobile navigation menu that slides in from the side"
     tags := ["navigation", "menu", "mobile", "slide", "hamburger"]
     category := "layout"
     difficulty := "intermediate"
     code := "<motion.nav\n  initial=\x7b\x7b x: \"-100%\" \x7d\x7d\n  animate=\x7b\x7b x: isOpen ? 0 : \"-100%\" \x7d\x7d\n  transition=\x7b\x7b type: \"spring\", stiffness: 300, damping: 30 \x7d\x7d\n  className=\"mobile-nav\"\n>\n  \x7bmenuItems.map(item => (\n    <motion.a\n      key=\x7bitem.id\x7d\n      whileHover=\x7b\x7b x: 10 \x7d\x7d\n      href=\x7bitem.href\x7d\n    >\n      \x7bitem.label\x7d\n    </motion.a>\n  ))\x7d\n</motion.nav>" },
   { id := "progress-bar"
     title := "Animated Progress Bar"
     description := "Progress bar that fills based on scroll position"
     tags := ["progress", "bar", "scroll", "indicator", "transform"]
     category := "scroll"
     difficulty := "beginner"
     code := "const \x7b scrollYProgress \x7d = useScroll();\n\nreturn (\n  <motion.div\n    className=\"progress-bar\"\n    style=\x7b\x7b scaleX: scrollYProgress \x7d\x7d\n    transformOrigin=\"0%\"\n  />\n);" }]

/-- `query.toLowerCase().split(/\s+/)`. -/
def searchTerms (query : String) : List String :=
  jsSplitWs (jsToLower query)

/-- The text the filter matches against:
`[title, description, ...tags, category, code].join(' ').toLowerCase()`. -/
def filterSearchableText (ex : SearchExample) : String :=
  jsToLower (String.intercalate (" ")
    ([ex.title, ex.description] ++ ex.tags ++ [ex.category, ex.code]))

/-- The filter: keep the examples whose searchable text contains at least
one search term. -/
def searchFilter (query : String) : List SearchExample :=
  SEARCHABLE_EXAMPLES.filter (fun ex =>
    (searchTerms query).any (fun term =>
      jsIncludes (filterSearchableText ex) term))

/-- Relevance: +3 per term in the title, +2 per term in the description,
+1 per term contained in some tag (title/description lowercased, tags
used as stored). -/
def relevanceScore (query : String) (ex : SearchExample) : Nat :=
  (searchTerms query).foldl (fun acc term =>
    acc + (if jsIncludes (jsToLower ex.title) term then 3 else 0)
        + (if jsIncludes (jsToLower ex.description) term then 2 else 0)
        + (if ex.tags.any (fun tag => jsIncludes tag term) then 1
           else 0)) 0

/-- Stable insertion keeping scores descending (extensionally the stable
JavaScript `sort((a, b) => b.relevanceScore - a.relevanceScore)`). -/
def insertByScore (x : SearchExample × Nat) :
    List (SearchExample × Nat) → List (SearchExample × Nat)
  | [] => [x]
  | y :: ys => if y.2 < x.2 then x :: y :: ys else y :: insertByScore x ys

def sortByScore (l : List (SearchExample × Nat)) :
    List (SearchExample × Nat) :=
  l.foldl (fun acc x => insertByScore x acc) []

def searchResults (query : String) : List (SearchExample × Nat) :=
  sortByScore ((searchFilter query).map
    (fun ex => (ex, relevanceScore query ex)))

structure SearchResult where
  query : String
  totalResults : Nat
  resultIds : List String
  suggestions : Option (List String)
  categories : List String
  popularExamples : Option (List String)

/-- The search handler's success result (result entries projected to
their ids; the stripped-score objects carry the same data as the
examples themselves). -/
def handleSearchMotionExamples (query : String) : SearchResult :=
  { query := query
    totalResults := (searchResults query).length
    resultIds := (searchResults query).map (fun r => r.1.id)
    suggestions :=
      if (searchResults query).length = 0 then
        some ["Try broader terms like \"animation\", \"gesture\", or \"scroll\"",
          "Search for specific components like \"button\", \"modal\", or \"card\"",
          "Look for animation types like \"spring\", \"fade\", or \"slide\""]
      else none
    categories := ["animations", "gestures", "layout", "scroll", "text"]
    popularExamples :=
      if (searchResults query).length = 0 then
        some ["spring-button", "drag-card", "fade-in-list",
          "parallax-scroll"]
      else none }

lemma string_append_cancel_left (s a b : String) (h : s ++ a = s ++ b) :
    a = b := by
  have hd : s.data ++ a.data = s.data ++ b.data := by
    rw [← String.data_append, ← String.data_append, h]
  have h2 := List.append_cancel_left hd
  cases a
  cases b
  exact congrArg String.mk h2

set_option maxRecDepth 100000 in
/-- Counterexample to claim C2: the schema-valid queries `spring button`
and `spring-button` derive the same search cache key, yet their search
behaviour differs (2 results versus 0). -/
theorem cache_key_not_injective :
    searchQuerySchema ("spring button") = true ∧
    searchQuerySchema ("spring-button") = true ∧
    searchCacheKey ("spring button") = searchCacheKey ("spring-button") ∧
    (handleSearchMotionExamples ("spring button")).totalResults = 2 ∧
    (handleSearchMotionExamples ("spring-button")).totalResults = 0 := by
  refine ⟨by decide, by decide, by decide, by decide, by decide⟩

/-- Claim C2 as amended: cache keys are deterministic string functions of
the validated parameter; for the component, example and docs tools the
key is injective in the parameter, but for the search tool two queries
share a key exactly when their normalizations (lowercasing, whitespace
runs collapsed to `-`) agree — so logically distinct queries such as
`spring button` and `spring-button` collide. -/
theorem cache_key_characterization :
    (∀ a b : String, componentCacheKey a = componentCacheKey b ↔ a = b) ∧
    (∀ a b : String, exampleCacheKey a = exampleCacheKey b ↔ a = b) ∧
    (∀ a b : String, docsCacheKey a = docsCacheKey b ↔ a = b) ∧
    (∀ q1 q2 : String, searchCacheKey q1 = searchCacheKey q2 ↔
      normalizeQuery q1 = normalizeQuery q2) := by
  refine ⟨?_, ?_, ?_, ?_⟩
  · intro a b
    exact ⟨fun h => string_append_cancel_left _ a b h, fun h => by
      unfold componentCacheKey
      rw [h]⟩
  · intro a b
    exact ⟨fun h => string_append_cancel_left _ a b h, fun h => by
      unfold exampleCacheKey
      rw [h]⟩
  · intro a b
    exact ⟨fun h => string_append_cancel_left _ a b h, fun h => by
      unfold docsCacheKey
      rw [h]⟩
  · intro q1 q2
    exact ⟨fun h => string_append_cancel_left _ _ _ h, fun h => by
      unfold searchCacheKey
      rw [h]⟩

/-- Witness for `cache_key_characterization`: concrete key equalities in
both directions. -/
theorem cache_key_characterization_witness :
    searchCacheKey ("Hello  World") = searchCacheKey ("hello world") ∧
    componentCacheKey ("animate") = componentCacheKey ("animate") := by
  refine ⟨(cache_key_characterization.2.2.2 ("Hello  World")
    ("hello world")).mpr (by decide), ?_⟩
  exact (cache_key_characterization.1 ("animate") ("animate")).mpr rfl

end MotionMCP
